import Mathlib

/-!
Verification of the MIOpen blockwise-to-threadwise GEMM lowering pass
(`BlockwiseGemmToThreadwise.cpp`) against its natural-language specification.

The pass contains four rewrite patterns (fill, blockwise_gemm,
blockwise_gemm_v2, threadwise_copy_v2) and a conversion driver.  Each pattern
is shallowly embedded below as an executable Lean function transcribed from
the C++ source; the theorems at the end of the file settle the spec claims.
-/

namespace BGTT

/-- SSA values are modelled as opaque identifiers. -/
abbrev Value := Nat

/-- IR element types (f32, f16, ...).  Only identity matters for the claims. -/
inductive ElemType where
  | f32
  | f16
  | bf16
  | i8
  | other (id : Nat)
deriving DecidableEq, Repr

/-! ## Loop-nest iteration semantics

Modelled from the spec: the affine loop-nest builder (`buildAffineLoopNest`)
and the indexed-loop-nest generator (`TransformingForOp`) are host-framework
utilities not present in the excerpt; per the spec they iterate the full
rectangular index space given by the bounds, outermost dimension first, and
invoke the body once per point. -/

/-- All iteration-space points of a rectangular loop nest with lower bounds 0,
upper bounds `shape`, and unit steps, in row-major (outer-first) order. -/
def loopNestCoords : List Nat → List (List Nat)
  | [] => [[]]
  | d :: ds => (List.range d).flatMap (fun i => (loopNestCoords ds).map (i :: ·))

/-- Whether a coordinate tuple lies inside the rectangle `[0, shape)`. -/
def coordInBounds : List Nat → List Nat → Bool
  | [], [] => true
  | i :: cs, d :: ds => decide (i < d) && coordInBounds cs ds
  | _, _ => false

theorem mem_loopNestCoords (shape : List Nat) (c : List Nat) :
    c ∈ loopNestCoords shape ↔ coordInBounds c shape = true := by
  induction shape generalizing c with
  | nil =>
    cases c with
    | nil => simp [loopNestCoords, coordInBounds]
    | cons x xs => simp [loopNestCoords, coordInBounds]
  | cons d ds ih =>
    cases c with
    | nil =>
      simp only [loopNestCoords, coordInBounds, List.mem_flatMap, List.mem_map]
      constructor
      · rintro ⟨i, _, cs, _, h⟩
        exact absurd h (by simp)
      · intro h
        exact absurd h (by simp)
    | cons x xs =>
      simp only [loopNestCoords, coordInBounds, List.mem_flatMap, List.mem_map,
        List.mem_range, Bool.and_eq_true, decide_eq_true_eq]
      constructor
      · rintro ⟨i, hi, cs, hcs, h⟩
        injection h with h1 h2
        subst h1
        subst h2
        exact ⟨hi, (ih cs).mp hcs⟩
      · rintro ⟨hx, hxs⟩
        exact ⟨x, hx, xs, (ih xs).mpr hxs, rfl⟩

theorem nodup_loopNestCoords (shape : List Nat) : (loopNestCoords shape).Nodup := by
  induction shape with
  | nil => simp [loopNestCoords]
  | cons d ds ih =>
    simp only [loopNestCoords]
    rw [List.nodup_flatMap]
    refine ⟨fun i _ => ih.map (fun a b h => ?_), ?_⟩
    · injection h
    · refine List.Pairwise.imp ?_ (List.nodup_range d)
      intro a b hab
      intro x hxa hxb
      obtain ⟨ca, _, rfl⟩ := List.mem_map.mp hxa
      obtain ⟨cb, _, hcb⟩ := List.mem_map.mp hxb
      injection hcb with h1 _
      exact hab h1.symm

theorem length_loopNestCoords (shape : List Nat) :
    (loopNestCoords shape).length = shape.prod := by
  induction shape with
  | nil => simp [loopNestCoords]
  | cons d ds ih =>
    simp only [loopNestCoords, List.length_flatMap, List.length_map, List.prod_cons]
    have hmap : List.map (List.length ∘ fun i => (loopNestCoords ds).map (i :: ·))
        (List.range d) = List.map (fun _ => ds.prod) (List.range d) := by
      refine List.map_congr_left (fun i _ => ?_)
      simp [Function.comp, ih]
    rw [hmap, List.map_const', List.sum_replicate, List.length_range, smul_eq_mul]

/-! ## Fill lowering (`FillRewritePattern::matchAndRewrite`, lines 56-76)

The C++ pattern reads the input memref shape, builds
`lbs = SmallVector(inputShape.size(), 0)`, `strides = SmallVector(size, 1)`,
calls `buildAffineLoopNest(b, loc, lbs, inputShape, strides, body)` where the
body stores the fill value at each coordinate, and finally `replaceOp(op, {})`. -/

/-- Result of lowering a `miopen.fill` op. -/
structure FillLowering where
  lowerBounds : List Nat
  upperBounds : List Nat
  steps : List Nat
  storedValue : Value
  storeTarget : Value
  stores : List (List Nat)
  replacementResults : List Value
deriving DecidableEq, Repr

/-- Shallow embedding of `FillRewritePattern::matchAndRewrite`. -/
def fillRewrite (inputShape : List Nat) (value input : Value) : FillLowering :=
  { lowerBounds := List.replicate inputShape.length 0
    upperBounds := inputShape
    steps := List.replicate inputShape.length 1
    storedValue := value
    storeTarget := input
    stores := loopNestCoords inputShape
    replacementResults := [] }

/-! ## ThreadwiseCopyV2 lowering
(`ThreadwiseCopyV2RewritePattern::matchAndRewrite`, lines 628-650) -/

/-- A scalar or vector IR type, as produced by the `copyLength > 1` checks. -/
inductive LoadStoreType where
  | scalar (elem : ElemType)
  | vector (width : Int) (elem : ElemType)
deriving DecidableEq, Repr

/-- Number of elements moved by a load/store of this type. -/
def LoadStoreType.elemCount : LoadStoreType → Int
  | .scalar _ => 1
  | .vector w _ => w

/-- Whether the type is a vector type. -/
def LoadStoreType.isVector : LoadStoreType → Bool
  | .scalar _ => false
  | .vector _ _ => true

/-- `typeToLoad`, lines 637-639: the source element type, wrapped into a
vector of width `copyLength` only when `copyLength > 1`. -/
def typeToLoad (copyLength : Int) (srcElem : ElemType) : LoadStoreType :=
  if copyLength > 1 then .vector copyLength srcElem else .scalar srcElem

/-- `typeToStore`, lines 640-642: same computation on the destination
element type. -/
def typeToStore (copyLength : Int) (dstElem : ElemType) : LoadStoreType :=
  if copyLength > 1 then .vector copyLength dstElem else .scalar dstElem

/-- The `miopen.threadwise_copy_v2` op being rewritten (operands and
attributes read by the pattern). -/
structure ThreadwiseCopyV2Op where
  source : Value
  dest : Value
  sourceElem : ElemType
  destElem : ElemType
  length : Int
  sourceCoord : Value
  destCoord : Value
  leftOobDims : List Nat
  rightOobDims : List Nat
  storeMethod : Nat
deriving DecidableEq, Repr

/-- Ops emitted by the threadwise_copy_v2 pattern. -/
inductive CopyEmitted where
  | inBoundsLoad (resType : LoadStoreType) (source : Value) (coord : Value)
  | bufferStore (storedType : LoadStoreType) (dest : Value)
      (leftOob rightOob : List Nat) (coord : Value) (method : Nat)
deriving DecidableEq, Repr

/-- Shallow embedding of `ThreadwiseCopyV2RewritePattern::matchAndRewrite`:
one `InBoundsLoadOp` of `typeToLoad` at `sourceCoord`, then the op is replaced
with one `BufferStoreOp` of the loaded value carrying the declared oob
dimensions and store method.  The stored value is `loaded`, so its type is the
loaded type. -/
def threadwiseCopyV2Rewrite (op : ThreadwiseCopyV2Op) : List CopyEmitted :=
  [ .inBoundsLoad (typeToLoad op.length op.sourceElem) op.source op.sourceCoord,
    .bufferStore (typeToLoad op.length op.sourceElem) op.dest
      op.leftOobDims op.rightOobDims op.destCoord op.storeMethod ]

/-! ## BlockwiseGemm (non-XDLOPS) lowering
(`BlockwiseGemmRewritePattern::matchAndRewrite`, lines 82-228) -/

/-- Address spaces relevant to the pass. -/
inductive AddrSpace where
  | privateRegs
  | lds
  | globalMem
deriving DecidableEq, Repr

/-- A `miopen.gpu_alloc` of a flat 1-D memref. -/
structure GpuAlloc where
  size : Nat
  elemType : ElemType
  addrSpace : AddrSpace
deriving DecidableEq, Repr

/-- The `miopen.blockwise_gemm` op being rewritten: LDS operand shapes
`matrixA : [k, m, kPack]`, `matrixB : [k, n, kPack]`, accumulator
`matrixC : [mC, nC]`, and the tile attributes read at lines 100-116. -/
structure BlockwiseGemmOp where
  k : Nat
  m : Nat
  n : Nat
  kPack : Nat
  mC : Nat
  nC : Nat
  kPerThread : Nat
  mPerThread : Nat
  nPerThread : Nat
  mRepeatStride : Nat
  nRepeatStride : Nat
  threadOffsetA : Value
  threadOffsetB : Value
  elemTypeC : ElemType
deriving DecidableEq, Repr

/-- `mRepeat = mC / mPerThread` (line 115). -/
def BlockwiseGemmOp.mRepeat (op : BlockwiseGemmOp) : Nat := op.mC / op.mPerThread

/-- `nRepeat = nC / nPerThread` (line 116). -/
def BlockwiseGemmOp.nRepeat (op : BlockwiseGemmOp) : Nat := op.nC / op.nPerThread

/-- The body of one `TransformingForOp` copy-loop iteration: one
`memref.load` from the (transformed) LDS view at the lower coordinates of
domain 0 and one `memref.store` to the register buffer at the lower
coordinates of domain 1 (lines 192-200 for A, 209-217 for B). -/
inductive MemEvent where
  | read (coord : List Nat)
  | write (coord : List Nat)
deriving DecidableEq, Repr

def MemEvent.isRead : MemEvent → Bool
  | .read _ => true
  | .write _ => false

def MemEvent.isWrite : MemEvent → Bool
  | .read _ => false
  | .write _ => true

/-- The memory events of one full execution of a copy loop with the given
bounds: the `TransformingForOp` iterates the rectangular space of the bounds
and its body performs exactly one load then one store per iteration. -/
def copyLoopEvents (bounds : List Nat) : List MemEvent :=
  (loopNestCoords bounds).flatMap (fun c => [.read c, .write c])

/-- Result of lowering a `miopen.blockwise_gemm` op. -/
structure BlockwiseGemmLowering where
  allocs : List GpuAlloc
  outerLB : Nat
  outerUB : Nat
  outerStep : Nat
  copyABounds : List Nat
  copyBBounds : List Nat
deriving DecidableEq, Repr

/-- Shallow embedding of `BlockwiseGemmRewritePattern::matchAndRewrite`:
`threadANumRegisters = kPerThread * mC * kPack` and
`threadBNumRegisters = kPerThread * nC * kPack` (lines 150-151), two
`GpuAllocOp`s of those sizes in private address space with the accumulator
element type (lines 154-162), an outer `affine.for` from 0 to `k` in steps
of `kPerThread` (line 179) whose body runs the two copy loops with bounds
`{kPerThread, mRepeat, mPerThread, kPack}` (line 190) and
`{kPerThread, nRepeat, nPerThread, kPack}` (line 207). -/
def blockwiseGemmRewrite (op : BlockwiseGemmOp) : BlockwiseGemmLowering :=
  { allocs :=
      [ ⟨op.kPerThread * op.mC * op.kPack, op.elemTypeC, .privateRegs⟩,
        ⟨op.kPerThread * op.nC * op.kPack, op.elemTypeC, .privateRegs⟩ ]
    outerLB := 0
    outerUB := op.k
    outerStep := op.kPerThread
    copyABounds := [op.kPerThread, op.mRepeat, op.mPerThread, op.kPack]
    copyBBounds := [op.kPerThread, op.nRepeat, op.nPerThread, op.kPack] }

theorem filter_isRead_pairEvents (l : List (List Nat)) :
    (l.flatMap (fun c => [MemEvent.read c, MemEvent.write c])).filter
        MemEvent.isRead = l.map MemEvent.read := by
  induction l with
  | nil => rfl
  | cons c cs ih =>
    simp only [List.flatMap_cons, List.filter_append, List.map_cons]
    rw [ih]
    rfl

theorem filter_isWrite_pairEvents (l : List (List Nat)) :
    (l.flatMap (fun c => [MemEvent.read c, MemEvent.write c])).filter
        MemEvent.isWrite = l.map MemEvent.write := by
  induction l with
  | nil => rfl
  | cons c cs ih =>
    simp only [List.flatMap_cons, List.filter_append, List.map_cons]
    rw [ih]
    rfl

theorem filter_isRead_copyLoopEvents (bounds : List Nat) :
    (copyLoopEvents bounds).filter MemEvent.isRead
      = (loopNestCoords bounds).map MemEvent.read :=
  filter_isRead_pairEvents (loopNestCoords bounds)

theorem filter_isWrite_copyLoopEvents (bounds : List Nat) :
    (copyLoopEvents bounds).filter MemEvent.isWrite
      = (loopNestCoords bounds).map MemEvent.write :=
  filter_isWrite_pairEvents (loopNestCoords bounds)

/-- Number of elements read from the LDS view by one run of a copy loop. -/
def elementsRead (bounds : List Nat) : Nat :=
  ((copyLoopEvents bounds).filter MemEvent.isRead).length

/-- Number of elements written to the register buffer by one run of a copy
loop. -/
def elementsWritten (bounds : List Nat) : Nat :=
  ((copyLoopEvents bounds).filter MemEvent.isWrite).length

theorem elementsRead_eq_prod (bounds : List Nat) :
    elementsRead bounds = bounds.prod := by
  rw [elementsRead, filter_isRead_copyLoopEvents, List.length_map,
    length_loopNestCoords]

theorem elementsWritten_eq_prod (bounds : List Nat) :
    elementsWritten bounds = bounds.prod := by
  rw [elementsWritten, filter_isWrite_copyLoopEvents, List.length_map,
    length_loopNestCoords]

/-! ## BlockwiseGemmV2 (XDLOPS) lowering
(`BlockwiseGemmV2RewritePattern::matchAndRewrite`, lines 235-620)

The pattern builds address computations out of `arith` ops
(`ConstantIndexOp`, `AddIOp`, `MulIOp`, `DivUIOp`, `RemUIOp`) over the
runtime values `WorkitemIdOp` (thread id), the `waveOffsetA`/`waveOffsetB`
operands, and `affine.for` induction variables.  `IExpr` mirrors those
expression trees, and `IExpr.eval` gives their arithmetic meaning.  All
values involved are nonnegative index values, where the unsigned
div/rem ops and C++ integer division agree with Euclidean `Int` division. -/

/-- Index-typed arithmetic expression as built by the rewrite. `iv d` is the
induction variable of the loop labelled `d`. -/
inductive IExpr where
  | const (v : Int)
  | tid
  | waveOffsetA
  | waveOffsetB
  | iv (label : Nat)
  | add (a b : IExpr)
  | mul (a b : IExpr)
  | divu (a b : IExpr)
  | remu (a b : IExpr)
deriving DecidableEq, Repr

/-- Runtime environment for evaluating an `IExpr`. -/
structure Env where
  tid : Int
  waveOffsetA : Int
  waveOffsetB : Int
  ivVal : Nat → Int

def IExpr.eval (env : Env) : IExpr → Int
  | .const v => v
  | .tid => env.tid
  | .waveOffsetA => env.waveOffsetA
  | .waveOffsetB => env.waveOffsetB
  | .iv label => env.ivVal label
  | .add a b => a.eval env + b.eval env
  | .mul a b => a.eval env * b.eval env
  | .divu a b => a.eval env / b.eval env
  | .remu a b => a.eval env % b.eval env

/-- The fields of the instruction-selection result (`XdlopsCodeSelection`)
that this pattern reads (lines 305-308).  The selection itself lives outside
this excerpt; it enters the rewrite as an input. -/
structure Xcs where
  num_threads_blk : Int
  num_input_blks : Int
  num_output_blks : Int
  k_base : Int
deriving DecidableEq, Repr

/-- The `miopen.blockwise_gemm_v2` op being rewritten: the integer
attributes read at lines 244-254 and 268-269.  `kpackAttr = none` models an
absent `kpack` attribute (`KPack` then defaults to 1). -/
structure BlockwiseGemmV2Op where
  m : Int
  n : Int
  k : Int
  mPerWave : Int
  nPerWave : Int
  kpackAttr : Option Int
  ldsOffsetA : Int
  ldsOffsetB : Int
  numVectorDs : Nat
deriving DecidableEq, Repr

/-- `KPack` (lines 251-254): the `kpack` attribute if present, else 1. -/
def BlockwiseGemmV2Op.KPack (op : BlockwiseGemmV2Op) : Int :=
  op.kpackAttr.getD 1

/-- `MRepeats = (MPerWave > 64) ? (MPerWave / 64) : 1` (line 263). -/
def MRepeats (mPerWave : Int) : Int := if mPerWave > 64 then mPerWave / 64 else 1

/-- `NRepeats = (NPerWave > 64) ? (NPerWave / 64) : 1` (line 264). -/
def NRepeats (nPerWave : Int) : Int := if nPerWave > 64 then nPerWave / 64 else 1

/-- `MPerXdlops = (MPerWave > 64) ? 64 : MPerWave` (line 265). -/
def MPerXdlops (mPerWave : Int) : Int := if mPerWave > 64 then 64 else mPerWave

/-- `NPerXdlops = (NPerWave > 64) ? 64 : NPerWave` (line 266). -/
def NPerXdlops (nPerWave : Int) : Int := if nPerWave > 64 then 64 else nPerWave

/-- One emitted `miopen.xdlops_gemm_v2` op: its two K-offset index operands
(the 5th and 6th operands, built from `ConstantIndexOp`s), the hard-coded or
copied `m_per_wave`/`n_per_wave` attributes, and which of the original op's
`vectorDs` result slots / `vectorCs` operands it takes. -/
structure XdlopsEmit where
  kOffsetA : IExpr
  kOffsetB : IExpr
  mPerWaveAttr : Int
  nPerWaveAttr : Int
  resultSlots : List Nat
  vectorCsSlots : List Nat
deriving DecidableEq, Repr

/-- A reference to result `resIdx` of emitted op `opIdx`. -/
abbrev ResultRef := Nat × Nat

/-- Result of (successfully) lowering a `miopen.blockwise_gemm_v2` op. -/
structure V2Lowering where
  mRepeats : Int
  nRepeats : Int
  mPerXdlops : Int
  nPerXdlops : Int
  isKReduction : Bool
  kPerThread : Int
  aBase : IExpr
  bBase : IExpr
  laneId : IExpr
  srcOffsetA : IExpr
  dstOffsetA : IExpr
  srcOffsetB : IExpr
  dstOffsetB : IExpr
  emitted : List XdlopsEmit
  replacement : Option (List ResultRef)
deriving DecidableEq, Repr

/-- Aborts of the rewrite: the two entry `assert`s (lines 271-274) and the
`llvm_unreachable` KPack/k_base check (lines 312-316). -/
inductive V2Abort where
  | assertLdsOffsetA
  | assertLdsOffsetB
  | kpackMismatch
deriving DecidableEq, Repr

/-- The successful-path payload of the v2 rewrite, transcribed from
lines 263-616.  Division by `KPack` happens only after the alignment assert,
where exact, truncating and Euclidean division all coincide; loop labels:
0 = outer M-repeat loop, 1 = its inner K loop, 2 = outer N-repeat loop,
3 = its inner K loop in the non-K-reduction branch, and 0 = the single K
loop of the K-reduction branch. -/
def v2LoweringCore (op : BlockwiseGemmV2Op) (xcs : Xcs) : V2Lowering :=
  let KPack := op.KPack
  let laneId : IExpr := .remu .tid (.const 64)
  let aBase : IExpr := .add .waveOffsetA (.const (op.ldsOffsetA / KPack))
  let bBase : IExpr := .add .waveOffsetB (.const (op.ldsOffsetB / KPack))
  let IsKReduction := xcs.num_output_blks = 1 ∧ xcs.num_input_blks > 1
  let KPerThread : Int :=
    if IsKReduction then op.k / xcs.num_input_blks else op.k
  let mulKPack (e : IExpr) : IExpr :=
    if KPack > 1 then .mul e (.const KPack) else e
  -- non-K-reduction staging (lines 357-430)
  let mOffset : IExpr := .add aBase (.mul (.const (MPerXdlops op.mPerWave)) (.iv 0))
  let kOffsetA : IExpr := .mul (.iv 0) (.const op.k)
  let srcANonK : IExpr :=
    mulKPack (.add (.add (.mul (.iv 1) (.const op.m)) laneId) mOffset)
  let dstANonK : IExpr := .add (.iv 1) kOffsetA
  let nOffset : IExpr := .add bBase (.mul (.const (NPerXdlops op.nPerWave)) (.iv 2))
  let kOffsetB : IExpr := .mul (.iv 2) (.const op.k)
  let srcBNonK : IExpr :=
    mulKPack (.add (.add (.mul (.iv 3) (.const op.n)) laneId) nOffset)
  let dstBNonK : IExpr := .add (.iv 3) kOffsetB
  -- K-reduction staging (lines 431-493)
  let blkId : IExpr := .divu laneId (.const xcs.num_threads_blk)
  let blkTd : IExpr := .remu laneId (.const xcs.num_threads_blk)
  let kBaseA : IExpr := .add aBase blkTd
  let kBaseB : IExpr := .add bBase blkTd
  let srcAK : IExpr :=
    mulKPack (.add (.mul (.add (.mul (.iv 0) (.const xcs.num_input_blks)) blkId)
      (.const op.m)) kBaseA)
  let srcBK : IExpr :=
    mulKPack (.add (.mul (.add (.mul (.iv 0) (.const xcs.num_input_blks)) blkId)
      (.const op.n)) kBaseB)
  -- emission (lines 495-616)
  let MRep := MRepeats op.mPerWave
  let NRep := NRepeats op.nPerWave
  let emitted_repl : List XdlopsEmit × Option (List ResultRef) :=
    if MRep = 1 ∧ NRep = 1 then
      ([ ⟨.const 0, .const 0, op.mPerWave, op.nPerWave,
          List.range op.numVectorDs, List.range op.numVectorDs⟩ ],
        some ((List.range op.numVectorDs).map (fun i => (0, i))))
    else if MRep = 2 ∧ NRep = 1 then
      ([ ⟨.const 0, .const 0, 64, 64, [0, 1], [0, 1]⟩,
         ⟨.const KPerThread, .const 0, 64, 64, [2, 3], [2, 3]⟩ ],
        some [(0, 0), (0, 1), (1, 0), (1, 1)])
    else if MRep = 1 ∧ NRep = 2 then
      ([ ⟨.const 0, .const 0, 64, 64, [0, 1], [0, 1]⟩,
         ⟨.const 0, .const KPerThread, 64, 64, [2, 3], [2, 3]⟩ ],
        some [(0, 0), (0, 1), (1, 0), (1, 1)])
    else
      ([], none)
  { mRepeats := MRep
    nRepeats := NRep
    mPerXdlops := MPerXdlops op.mPerWave
    nPerXdlops := NPerXdlops op.nPerWave
    isKReduction := decide IsKReduction
    kPerThread := KPerThread
    aBase := aBase
    bBase := bBase
    laneId := laneId
    srcOffsetA := if IsKReduction then srcAK else srcANonK
    dstOffsetA := if IsKReduction then .iv 0 else dstANonK
    srcOffsetB := if IsKReduction then srcBK else srcBNonK
    dstOffsetB := if IsKReduction then .iv 0 else dstBNonK
    emitted := emitted_repl.1
    replacement := emitted_repl.2 }

/-- Shallow embedding of `BlockwiseGemmV2RewritePattern::matchAndRewrite`:
the two alignment asserts fire first (lines 271-274), then the
`llvm_unreachable` KPack/k_base guard (lines 312-316), then the staging and
emission of `v2LoweringCore`. -/
def blockwiseGemmV2Rewrite (op : BlockwiseGemmV2Op) (xcs : Xcs) :
    Except V2Abort V2Lowering :=
  let KPack := op.KPack
  if op.ldsOffsetA % KPack ≠ 0 then .error .assertLdsOffsetA
  else if op.ldsOffsetB % KPack ≠ 0 then .error .assertLdsOffsetB
  else if KPack > 1 ∧ (KPack < xcs.k_base ∨ KPack % xcs.k_base ≠ 0) then
    .error .kpackMismatch
  else .ok (v2LoweringCore op xcs)

/-! ## Conversion driver
(`MIOpenLowerBlockwiseGemmToThreadwisePass::runOnOperation`, lines 653-669)

The conversion target and the pattern set are transcribed from the source.
The fixed-point application itself (`applyPartialConversion`) is host
framework code outside this excerpt.  Modelled from the spec: the driver
applies the pattern of each illegal op; it converges when no illegal op
remains, and a rule that fails to apply (here: fails to replace its illegal
root) aborts the pass, reported as a pass-failure signal, not a crash. -/

/-- IR dialects relevant to the conversion target. -/
inductive Dialect where
  | arith
  | miopen
  | affine
  | memref
  | vector
  | gpu
  | func
  | otherDialect (id : Nat)
deriving DecidableEq, Repr

/-- Kinds of ops appearing in this pass: the four illegal ops, the op kinds
the patterns create, and foreign ops the conversion leaves alone. -/
inductive OpKind where
  | fill
  | blockwiseGemm
  | blockwiseGemmV2
  | threadwiseCopyV2
  | xdlopsGemmV2
  | threadwiseGemm
  | gpuAlloc
  | workitemId
  | inBoundsLoad
  | bufferStore
  | transformingFor
  | transformView
  | affineFor
  | memrefLoad
  | memrefStore
  | arithConstant
  | arithAddI
  | arithMulI
  | arithDivUI
  | arithRemUI
  | arithCast
  | foreign (d : Dialect) (id : Nat)
deriving DecidableEq, Repr

/-- The dialect each op kind belongs to. -/
def dialectOf : OpKind → Dialect
  | .fill => .miopen
  | .blockwiseGemm => .miopen
  | .blockwiseGemmV2 => .miopen
  | .threadwiseCopyV2 => .miopen
  | .xdlopsGemmV2 => .miopen
  | .threadwiseGemm => .miopen
  | .gpuAlloc => .miopen
  | .workitemId => .miopen
  | .inBoundsLoad => .miopen
  | .bufferStore => .miopen
  | .transformingFor => .miopen
  | .transformView => .miopen
  | .affineFor => .affine
  | .memrefLoad => .memref
  | .memrefStore => .memref
  | .arithConstant => .arith
  | .arithAddI => .arith
  | .arithMulI => .arith
  | .arithDivUI => .arith
  | .arithRemUI => .arith
  | .arithCast => .arith
  | .foreign d _ => d

/-- `target.addIllegalOp<FillOp, BlockwiseGemmOp, BlockwiseGemmV2Op,
ThreadwiseCopyV2Op>()` (lines 656-657). -/
def illegalKinds : List OpKind :=
  [.fill, .blockwiseGemm, .blockwiseGemmV2, .threadwiseCopyV2]

/-- `target.addLegalDialect<arith, miopen, affine, memref, vector>()`
(lines 658-660). -/
def legalDialects : List Dialect :=
  [.arith, .miopen, .affine, .memref, .vector]

/-- Support of the op kinds created by the fill pattern (lines 67-71). -/
def fillEmitKinds : List OpKind := [.affineFor, .memrefStore]

/-- Support of the op kinds created by the blockwise_gemm pattern
(lines 92-225): index constants, the two register allocs, the outer affine
loop, the two transforming-for copy loops with their load/convert/store
bodies, the register reshape views, and the final threadwise_gemm. -/
def gemmEmitKinds : List OpKind :=
  [.arithConstant, .gpuAlloc, .affineFor, .transformingFor, .memrefLoad,
    .arithCast, .memrefStore, .transformView, .threadwiseGemm]

/-- Support of the op kinds created by the blockwise_gemm_v2 pattern
(lines 288-616): address arithmetic, the workitem id, the staging loops with
their in-bounds loads and register stores, and the emitted xdlops_gemm_v2
ops. -/
def gemmV2EmitKinds : List OpKind :=
  [.arithConstant, .arithAddI, .arithMulI, .arithDivUI, .arithRemUI,
    .workitemId, .affineFor, .inBoundsLoad, .memrefStore, .xdlopsGemmV2]

/-- Support of the op kinds created by the threadwise_copy_v2 pattern
(lines 644-648). -/
def copyV2EmitKinds : List OpKind := [.inBoundsLoad, .bufferStore]

/-- An op presented to the conversion driver. -/
inductive PassOp where
  | fillOp (shape : List Nat) (value input : Value)
  | gemmOp (op : BlockwiseGemmOp)
  | gemmV2Op (op : BlockwiseGemmV2Op) (xcs : Xcs)
  | copyV2Op (op : ThreadwiseCopyV2Op)
  | otherOp (k : OpKind)

/-- The kind of an op. -/
def PassOp.kind : PassOp → OpKind
  | .fillOp _ _ _ => .fill
  | .gemmOp _ => .blockwiseGemm
  | .gemmV2Op _ _ => .blockwiseGemmV2
  | .copyV2Op _ => .threadwiseCopyV2
  | .otherOp k => k

/-- Result of one pattern application: the support of emitted op kinds and
whether the root op was replaced. -/
structure PatResult where
  emittedKinds : List OpKind
  rootReplaced : Bool
deriving DecidableEq, Repr

/-- A pattern invocation either aborts the process (an assert fired) or
runs to completion. -/
inductive PatOutcome where
  | abort (a : V2Abort)
  | applied (r : PatResult)
deriving DecidableEq, Repr

/-- The pattern (if any) matching an op, and its outcome.  The fill,
blockwise_gemm and threadwise_copy_v2 patterns unconditionally replace
their root; the blockwise_gemm_v2 pattern replaces its root only when one
of its three repeat-combination branches fires. -/
def applyPattern : PassOp → Option PatOutcome
  | .fillOp _ _ _ => some (.applied ⟨fillEmitKinds, true⟩)
  | .gemmOp _ => some (.applied ⟨gemmEmitKinds, true⟩)
  | .gemmV2Op op xcs =>
    match blockwiseGemmV2Rewrite op xcs with
    | .error a => some (.abort a)
    | .ok res => some (.applied ⟨gemmV2EmitKinds, res.replacement.isSome⟩)
  | .copyV2Op _ => some (.applied ⟨copyV2EmitKinds, true⟩)
  | .otherOp _ => none

/-- Outcome of the whole pass. -/
inductive PassOutcome where
  | converged (remaining emitted : List OpKind)
  | signalPassFailure
  | aborted (a : V2Abort)
deriving DecidableEq, Repr

/-- Modelled from the spec: one conversion sweep.  Illegal ops must be
legalized by their pattern (their replacements are already legal, so one
sweep reaches the fixed point); ops that are not declared illegal are left
in place by partial conversion.  `Except.error none` is a conversion
failure, `Except.error (some a)` an assertion abort. -/
def convertOps : List PassOp → Except (Option V2Abort) (List OpKind × List OpKind)
  | [] => .ok ([], [])
  | o :: rest =>
    match convertOps rest with
    | .error e => .error e
    | .ok (rem, em) =>
      if o.kind ∈ illegalKinds then
        match applyPattern o with
        | some (.abort a) => .error (some a)
        | some (.applied r) =>
          if r.rootReplaced then .ok (rem, r.emittedKinds ++ em)
          else .error none
        | none => .error none
      else .ok (o.kind :: rem, em)

/-- Shallow embedding of `runOnOperation` (lines 653-669): run the
conversion; on failure, `signalPassFailure()`. -/
def runPass (ops : List PassOp) : PassOutcome :=
  match convertOps ops with
  | .ok (rem, em) => .converged rem em
  | .error none => .signalPassFailure
  | .error (some a) => .aborted a

/-! ## Claim theorems -/

/-- C8: for every fill op, the lowering replaces it with a nested affine
loop with one loop per dimension of the input memref, lower bounds all 0,
upper bounds equal to the memref shape, steps all 1, whose body stores the
fill value at each coordinate; every in-bounds coordinate is written exactly
once (the store list is duplicate-free and contains exactly the in-bounds
coordinates) and the op is erased with no results. -/
theorem fill_lowering_writes_each_coordinate_once (shape : List Nat)
    (v inp : Value) :
    (fillRewrite shape v inp).lowerBounds = List.replicate shape.length 0 ∧
    (fillRewrite shape v inp).steps = List.replicate shape.length 1 ∧
    (fillRewrite shape v inp).upperBounds = shape ∧
    (fillRewrite shape v inp).lowerBounds.length = shape.length ∧
    (fillRewrite shape v inp).storedValue = v ∧
    (fillRewrite shape v inp).replacementResults = [] ∧
    (fillRewrite shape v inp).stores.Nodup ∧
    ∀ c, c ∈ (fillRewrite shape v inp).stores ↔ coordInBounds c shape = true := by
  refine ⟨rfl, rfl, rfl, by simp [fillRewrite], rfl, rfl,
    nodup_loopNestCoords shape, fun c => mem_loopNestCoords shape c⟩

/-- C9: for every threadwise_copy_v2 op, the lowering emits exactly one
in-bounds load from the source at the source coordinate whose type moves
`length` elements (a vector of width `length` when `length > 1`), followed
by exactly one bounds-checked buffer store of the loaded value to the
destination at the destination coordinate carrying the declared left/right
out-of-bounds dimensions and the store method; no other ops are emitted. -/
theorem threadwiseCopyV2_one_load_one_store (op : ThreadwiseCopyV2Op)
    (hL : 1 ≤ op.length) :
    threadwiseCopyV2Rewrite op =
      [ .inBoundsLoad (typeToLoad op.length op.sourceElem) op.source
          op.sourceCoord,
        .bufferStore (typeToLoad op.length op.sourceElem) op.dest
          op.leftOobDims op.rightOobDims op.destCoord op.storeMethod ] ∧
    (threadwiseCopyV2Rewrite op).length = 2 ∧
    (typeToLoad op.length op.sourceElem).elemCount = op.length := by
  refine ⟨rfl, rfl, ?_⟩
  by_cases h : op.length > 1
  · simp [typeToLoad, h, LoadStoreType.elemCount]
  · simp only [typeToLoad, if_neg h, LoadStoreType.elemCount]
    omega

/-- Witness for C9 at a concrete copy of length 4. -/
theorem threadwiseCopyV2_one_load_one_store_witness :
    (typeToLoad (4 : Int) ElemType.f32).elemCount = 4 ∧
    (threadwiseCopyV2Rewrite ⟨1, 2, .f32, .f32, 4, 3, 4, [0], [1], 0⟩).length
      = 2 :=
  have h := threadwiseCopyV2_one_load_one_store
    ⟨1, 2, .f32, .f32, 4, 3, 4, [0], [1], 0⟩ (by decide)
  ⟨h.2.2, h.2.1⟩

/-- C10: when a threadwise_copy_v2 op has length 1, the generated load and
store use the scalar element types rather than a 1-element vector type;
vector types of width L are used only when L exceeds 1. -/
theorem threadwiseCopyV2_scalar_types_at_length_one (L : Int)
    (se de : ElemType) :
    typeToLoad 1 se = .scalar se ∧
    typeToStore 1 de = .scalar de ∧
    (1 < L → typeToLoad L se = .vector L se ∧ typeToStore L de = .vector L de) ∧
    (L ≤ 1 → typeToLoad L se = .scalar se ∧ typeToStore L de = .scalar de) := by
  refine ⟨by simp [typeToLoad], by simp [typeToStore], fun h => ?_, fun h => ?_⟩
  · simp [typeToLoad, typeToStore, h]
  · have h1 : ¬(1 < L) := by omega
    simp [typeToLoad, typeToStore, h1]

/-- Witness for C10 at lengths 1 and 4. -/
theorem threadwiseCopyV2_scalar_types_at_length_one_witness :
    typeToLoad 1 ElemType.f32 = .scalar .f32 ∧
    typeToLoad 4 ElemType.f16 = .vector 4 .f16 ∧
    typeToStore 1 ElemType.i8 = .scalar .i8 :=
  ⟨(threadwiseCopyV2_scalar_types_at_length_one 4 .f32 .f32).1,
    ((threadwiseCopyV2_scalar_types_at_length_one 4 .f16 .f16).2.2.1
      (by decide)).1,
    ((threadwiseCopyV2_scalar_types_at_length_one 1 .i8 .i8).2.2.2
      (by decide)).2⟩

/-- C4: for every blockwise_gemm op whose tile attributes divide evenly,
one run of the A copy loop (executed once per iteration of the generated
outer K loop) reads exactly kPerThread × mRepeat × mPerThread × kPack
elements from the transformed matrix A view and writes exactly as many into
the private A register buffer, and likewise for B with nRepeat and
nPerThread. -/
theorem blockwiseGemm_copy_preserves_element_count (op : BlockwiseGemmOp)
    (hm : op.mC % op.mPerThread = 0) (hn : op.nC % op.nPerThread = 0) :
    elementsRead (blockwiseGemmRewrite op).copyABounds
        = op.kPerThread * op.mRepeat * op.mPerThread * op.kPack ∧
    elementsWritten (blockwiseGemmRewrite op).copyABounds
        = elementsRead (blockwiseGemmRewrite op).copyABounds ∧
    elementsRead (blockwiseGemmRewrite op).copyBBounds
        = op.kPerThread * op.nRepeat * op.nPerThread * op.kPack ∧
    elementsWritten (blockwiseGemmRewrite op).copyBBounds
        = elementsRead (blockwiseGemmRewrite op).copyBBounds := by
  refine ⟨?_, ?_, ?_, ?_⟩ <;>
    simp only [blockwiseGemmRewrite, elementsRead_eq_prod,
      elementsWritten_eq_prod, List.prod_cons, List.prod_nil] <;> ring

/-- Witness for C4 at a concrete configuration. -/
theorem blockwiseGemm_copy_preserves_element_count_witness :
    elementsRead (blockwiseGemmRewrite
        ⟨8, 4, 4, 2, 4, 4, 2, 2, 2, 1, 1, 0, 0, .f32⟩).copyABounds = 16 :=
  have h := blockwiseGemm_copy_preserves_element_count
    ⟨8, 4, 4, 2, 4, 4, 2, 2, 2, 1, 1, 0, 0, .f32⟩ (by decide) (by decide)
  h.1.trans (by decide)

/-- Concrete blockwise_gemm op refuting the C5 size formula: kPerThread = 2,
mC = nC = 4, mPerThread = nPerThread = 2 (so repeat count 2), kPack = 2. -/
def c5CounterOp : BlockwiseGemmOp := ⟨8, 4, 4, 2, 4, 4, 2, 2, 2, 1, 1, 0, 0, .f32⟩

/-- C5 counterexample: the code allocates kPerThread × mC × kPack = 16
elements per buffer here, while the claimed size
kPerThread × repeat-count × kPack is 8. -/
theorem blockwiseGemm_alloc_size_counterexample :
    (blockwiseGemmRewrite c5CounterOp).allocs.map GpuAlloc.size = [16, 16] ∧
    c5CounterOp.mC % c5CounterOp.mPerThread = 0 ∧
    c5CounterOp.nC % c5CounterOp.nPerThread = 0 ∧
    c5CounterOp.kPerThread * c5CounterOp.mRepeat * c5CounterOp.kPack = 8 ∧
    c5CounterOp.kPerThread * c5CounterOp.nRepeat * c5CounterOp.kPack = 8 ∧
    (16 : Nat) ≠ 8 := by
  refine ⟨rfl, rfl, rfl, rfl, rfl, by decide⟩

/-- C5 amended: the lowering allocates exactly two private register-scope
flat buffers of the output element type, sized K-per-thread × repeat-count
× per-thread-tile × K-pack elements (= kPerThread × mC × kPack for A and
kPerThread × nC × kPack for B). -/
theorem blockwiseGemm_allocates_two_private_buffers (op : BlockwiseGemmOp)
    (hm : op.mC % op.mPerThread = 0) (hn : op.nC % op.nPerThread = 0) :
    (blockwiseGemmRewrite op).allocs =
      [ ⟨op.kPerThread * op.mRepeat * op.mPerThread * op.kPack, op.elemTypeC,
          .privateRegs⟩,
        ⟨op.kPerThread * op.nRepeat * op.nPerThread * op.kPack, op.elemTypeC,
          .privateRegs⟩ ] := by
  have h1 : op.mC / op.mPerThread * op.mPerThread = op.mC :=
    Nat.div_mul_cancel (Nat.dvd_of_mod_eq_zero hm)
  have h2 : op.nC / op.nPerThread * op.nPerThread = op.nC :=
    Nat.div_mul_cancel (Nat.dvd_of_mod_eq_zero hn)
  have e1 : op.kPerThread * (op.mC / op.mPerThread) * op.mPerThread * op.kPack
      = op.kPerThread * op.mC * op.kPack := by
    rw [mul_assoc op.kPerThread (op.mC / op.mPerThread) op.mPerThread, h1]
  have e2 : op.kPerThread * (op.nC / op.nPerThread) * op.nPerThread * op.kPack
      = op.kPerThread * op.nC * op.kPack := by
    rw [mul_assoc op.kPerThread (op.nC / op.nPerThread) op.nPerThread, h2]
  simp only [blockwiseGemmRewrite, BlockwiseGemmOp.mRepeat,
    BlockwiseGemmOp.nRepeat, e1, e2]

/-- Witness for the amended C5 at a concrete configuration. -/
theorem blockwiseGemm_allocates_two_private_buffers_witness :
    (blockwiseGemmRewrite c5CounterOp).allocs =
      [⟨16, .f32, .privateRegs⟩, ⟨16, .f32, .privateRegs⟩] :=
  (blockwiseGemm_allocates_two_private_buffers c5CounterOp (by decide)
    (by decide)).trans (by decide)

/-- C1: for a blockwise_gemm_v2 op with m_per_wave = 128 and
n_per_wave = 64, the lowering computes MRepeats = 2, NRepeats = 1,
MPerXdlops = 64, NPerXdlops = 64 and replaces the op with exactly two
xdlops_gemm_v2 ops whose K-offset operands are 0 and KPerThread
respectively, each carrying m_per_wave = 64 and n_per_wave = 64, and whose
four accumulator results replace the original results in the order
[op0.d0, op0.d1, op1.d0, op1.d1]. -/
theorem blockwiseGemmV2_mPerWave128_nPerWave64 (op : BlockwiseGemmV2Op)
    (xcs : Xcs) (hm : op.mPerWave = 128) (hn : op.nPerWave = 64)
    (hA : op.ldsOffsetA % op.KPack = 0) (hB : op.ldsOffsetB % op.KPack = 0)
    (hkp : ¬(op.KPack > 1 ∧
      (op.KPack < xcs.k_base ∨ op.KPack % xcs.k_base ≠ 0))) :
    blockwiseGemmV2Rewrite op xcs = .ok (v2LoweringCore op xcs) ∧
    (v2LoweringCore op xcs).mRepeats = 2 ∧
    (v2LoweringCore op xcs).nRepeats = 1 ∧
    (v2LoweringCore op xcs).mPerXdlops = 64 ∧
    (v2LoweringCore op xcs).nPerXdlops = 64 ∧
    (v2LoweringCore op xcs).emitted =
      [ ⟨.const 0, .const 0, 64, 64, [0, 1], [0, 1]⟩,
        ⟨.const (v2LoweringCore op xcs).kPerThread, .const 0, 64, 64,
          [2, 3], [2, 3]⟩ ] ∧
    (v2LoweringCore op xcs).replacement = some [(0, 0), (0, 1), (1, 0), (1, 1)] := by
  have hrep2 : MRepeats op.mPerWave = 2 := by rw [hm]; decide
  have hrep1 : NRepeats op.nPerWave = 1 := by rw [hn]; decide
  have hmx : MPerXdlops op.mPerWave = 64 := by rw [hm]; decide
  have hnx : NPerXdlops op.nPerWave = 64 := by rw [hn]; decide
  refine ⟨?_, ?_, ?_, ?_, ?_, ?_, ?_⟩
  · simp only [blockwiseGemmV2Rewrite]
    rw [if_neg (fun hc => hc hA), if_neg (fun hc => hc hB), if_neg hkp]
  · simp [v2LoweringCore, hrep2]
  · simp [v2LoweringCore, hrep1]
  · simp [v2LoweringCore, hmx]
  · simp [v2LoweringCore, hnx]
  · simp [v2LoweringCore, hrep2, hrep1]
  · simp [v2LoweringCore, hrep2, hrep1]

/-- Concrete op and selection for the C1 witness: MPerWave = 128,
NPerWave = 64, no kpack attribute. -/
def c1WitnessOp : BlockwiseGemmV2Op := ⟨256, 256, 16, 128, 64, none, 0, 0, 4⟩

def c1WitnessXcs : Xcs := ⟨32, 2, 1, 1⟩

/-- Witness for C1 at the concrete op above. -/
theorem blockwiseGemmV2_mPerWave128_nPerWave64_witness :
    (v2LoweringCore c1WitnessOp c1WitnessXcs).mRepeats = 2 ∧
    (v2LoweringCore c1WitnessOp c1WitnessXcs).replacement
      = some [(0, 0), (0, 1), (1, 0), (1, 1)] :=
  have h := blockwiseGemmV2_mPerWave128_nPerWave64 c1WitnessOp c1WitnessXcs
    rfl rfl (by decide) (by decide) (by decide)
  ⟨h.2.1, h.2.2.2.2.2.2⟩

/-- Concrete op with MPerWave = NPerWave = 128 (so MRepeats = NRepeats = 2)
for the C2 counterexample. -/
def c2CounterOp : BlockwiseGemmV2Op := ⟨256, 256, 16, 128, 128, none, 0, 0, 4⟩

def c2CounterXcs : Xcs := ⟨32, 2, 1, 1⟩

/-- C2 counterexample: with the {2,2} repeat combination the rewrite
succeeds, emits no xdlops_gemm_v2 op and performs no replacement — the
pattern does not signal a fatal error or pass failure. -/
theorem blockwiseGemmV2_2x2_falls_through :
    blockwiseGemmV2Rewrite c2CounterOp c2CounterXcs
      = .ok (v2LoweringCore c2CounterOp c2CounterXcs) ∧
    (v2LoweringCore c2CounterOp c2CounterXcs).mRepeats = 2 ∧
    (v2LoweringCore c2CounterOp c2CounterXcs).nRepeats = 2 ∧
    (v2LoweringCore c2CounterOp c2CounterXcs).emitted = [] ∧
    (v2LoweringCore c2CounterOp c2CounterXcs).replacement = none :=
  ⟨rfl, rfl, rfl, rfl, rfl⟩

/-- C2 amended: for every blockwise_gemm_v2 op that passes the entry
asserts and whose repeat combination is not {1,1}, {2,1} or {1,2}, the
rewrite returns success while emitting no xdlops_gemm_v2 op and leaving the
op unreplaced: the unsupported combination falls through silently instead
of producing a compilation-time fatal error. -/
theorem blockwiseGemmV2_unsupported_repeats_fall_through
    (op : BlockwiseGemmV2Op) (xcs : Xcs)
    (hA : op.ldsOffsetA % op.KPack = 0) (hB : op.ldsOffsetB % op.KPack = 0)
    (hkp : ¬(op.KPack > 1 ∧
      (op.KPack < xcs.k_base ∨ op.KPack % xcs.k_base ≠ 0)))
    (h11 : ¬(MRepeats op.mPerWave = 1 ∧ NRepeats op.nPerWave = 1))
    (h21 : ¬(MRepeats op.mPerWave = 2 ∧ NRepeats op.nPerWave = 1))
    (h12 : ¬(MRepeats op.mPerWave = 1 ∧ NRepeats op.nPerWave = 2)) :
    blockwiseGemmV2Rewrite op xcs = .ok (v2LoweringCore op xcs) ∧
    (v2LoweringCore op xcs).emitted = [] ∧
    (v2LoweringCore op xcs).replacement = none := by
  refine ⟨?_, ?_, ?_⟩
  · simp only [blockwiseGemmV2Rewrite]
    rw [if_neg (fun hc => hc hA), if_neg (fun hc => hc hB), if_neg hkp]
  · simp [v2LoweringCore, h11, h21, h12]
  · simp [v2LoweringCore, h11, h21, h12]

/-- Witness for the amended C2 at the concrete {2,2} op. -/
theorem blockwiseGemmV2_unsupported_repeats_fall_through_witness :
    (v2LoweringCore c2CounterOp c2CounterXcs).emitted = [] ∧
    (v2LoweringCore c2CounterOp c2CounterXcs).replacement = none :=
  have h := blockwiseGemmV2_unsupported_repeats_fall_through c2CounterOp
    c2CounterXcs (by decide) (by decide) (by decide) (by decide) (by decide)
    (by decide)
  ⟨h.2.1, h.2.2⟩

/-- C3: the blockwise_gemm_v2 lowering asserts on entry that ldsOffsetA and
ldsOffsetB are KPack-aligned (a misaligned offset aborts, first A then B);
under that precondition the base address is waveOffsetA + ldsOffsetA/KPack,
and in the non-K-reduction staging with KPack > 1 the assembled source
offset, multiplied by KPack, round-trips the division exactly, contributing
waveOffsetA × KPack + ldsOffsetA to the address. -/
theorem blockwiseGemmV2_lds_offset_alignment (op : BlockwiseGemmV2Op)
    (xcs : Xcs) (hK : 0 < op.KPack) :
    (op.ldsOffsetA % op.KPack = 0 → op.ldsOffsetB % op.KPack = 0 →
      (v2LoweringCore op xcs).aBase
          = .add .waveOffsetA (.const (op.ldsOffsetA / op.KPack)) ∧
      (∀ env : Env, ((v2LoweringCore op xcs).aBase).eval env
          = env.waveOffsetA + op.ldsOffsetA / op.KPack) ∧
      op.KPack * (op.ldsOffsetA / op.KPack) = op.ldsOffsetA ∧
      ((v2LoweringCore op xcs).isKReduction = false → 1 < op.KPack →
        ∀ env : Env, ((v2LoweringCore op xcs).srcOffsetA).eval env
          = op.KPack * (env.ivVal 1 * op.m + env.tid % 64
              + MPerXdlops op.mPerWave * env.ivVal 0)
            + (op.KPack * env.waveOffsetA + op.ldsOffsetA))) ∧
    (op.ldsOffsetA % op.KPack ≠ 0 →
      blockwiseGemmV2Rewrite op xcs = .error .assertLdsOffsetA) ∧
    (op.ldsOffsetA % op.KPack = 0 → op.ldsOffsetB % op.KPack ≠ 0 →
      blockwiseGemmV2Rewrite op xcs = .error .assertLdsOffsetB) := by
  refine ⟨fun hA hB => ?_, fun hA => ?_, fun hA hB => ?_⟩
  · have hd : op.KPack ∣ op.ldsOffsetA := Int.dvd_of_emod_eq_zero hA
    have hrt : op.KPack * (op.ldsOffsetA / op.KPack) = op.ldsOffsetA :=
      Int.mul_ediv_cancel' hd
    refine ⟨rfl, fun env => rfl, hrt, fun hKR hgt env => ?_⟩
    have hKR' : ¬(xcs.num_output_blks = 1 ∧ xcs.num_input_blks > 1) := by
      simpa [v2LoweringCore] using hKR
    simp only [v2LoweringCore, if_neg hKR', if_pos hgt, IExpr.eval]
    generalize hq : op.ldsOffsetA / op.KPack = q at hrt ⊢
    rw [← hrt]
    ring
  · simp only [blockwiseGemmV2Rewrite]
    rw [if_pos hA]
  · simp only [blockwiseGemmV2Rewrite]
    rw [if_neg (fun hc => hc hA), if_pos hB]

/-- Concrete op for the C3 witness: KPack = 4, ldsOffsetA = 8, which gives
base address waveOffsetA + 2; and a non-K-reduction selection. -/
def c3AlignedOp : BlockwiseGemmV2Op := ⟨256, 256, 16, 64, 64, some 4, 8, 0, 2⟩

/-- The same op with ldsOffsetA = 6, misaligned for KPack = 4. -/
def c3MisalignedOp : BlockwiseGemmV2Op := ⟨256, 256, 16, 64, 64, some 4, 6, 0, 2⟩

def c3WitnessXcs : Xcs := ⟨32, 1, 2, 4⟩

/-- Witness for C3: at KPack = 4 and ldsOffsetA = 8 the base address is
waveOffsetA + 2 and the division round-trips; at ldsOffsetA = 6 the
rewrite aborts on the A alignment assert. -/
theorem blockwiseGemmV2_lds_offset_alignment_witness :
    (v2LoweringCore c3AlignedOp c3WitnessXcs).aBase
        = .add .waveOffsetA (.const 2) ∧
    (4 : Int) * ((8 : Int) / (4 : Int)) = 8 ∧
    blockwiseGemmV2Rewrite c3MisalignedOp c3WitnessXcs
      = .error .assertLdsOffsetA :=
  have ha := (blockwiseGemmV2_lds_offset_alignment c3AlignedOp c3WitnessXcs
    (by decide)).1 (by decide) (by decide)
  have hb := (blockwiseGemmV2_lds_offset_alignment c3MisalignedOp
    c3WitnessXcs (by decide)).2.1 (by decide)
  ⟨ha.1.trans (by decide), ha.2.2.1, hb⟩

/-- C6: K-reduction mode holds exactly when the selected instruction has
num_output_blks = 1 and num_input_blks > 1; in that mode
KPerThread = K / num_input_blks, the lane id splits into
blk_id = laneId / num_threads_blk and blk_td = laneId % num_threads_blk,
and the single staging loop loads A at source offset
((k_i × num_input_blks + blk_id) × M + blk_td + base), multiplied by KPack
when KPack > 1, storing to register index k_i; and B analogously with N. -/
theorem blockwiseGemmV2_kreduction_staging (op : BlockwiseGemmV2Op)
    (xcs : Xcs) (hout : xcs.num_output_blks = 1)
    (hin : xcs.num_input_blks > 1) :
    (∀ xcs2 : Xcs, (v2LoweringCore op xcs2).isKReduction = true ↔
      (xcs2.num_output_blks = 1 ∧ xcs2.num_input_blks > 1)) ∧
    (v2LoweringCore op xcs).isKReduction = true ∧
    (v2LoweringCore op xcs).kPerThread = op.k / xcs.num_input_blks ∧
    (v2LoweringCore op xcs).dstOffsetA = .iv 0 ∧
    (v2LoweringCore op xcs).dstOffsetB = .iv 0 ∧
    ∀ env : Env,
      ((v2LoweringCore op xcs).srcOffsetA).eval env
        = (if 1 < op.KPack then op.KPack else 1)
          * ((env.ivVal 0 * xcs.num_input_blks
                + (env.tid % 64) / xcs.num_threads_blk) * op.m
             + (env.tid % 64) % xcs.num_threads_blk
             + (env.waveOffsetA + op.ldsOffsetA / op.KPack)) ∧
      ((v2LoweringCore op xcs).srcOffsetB).eval env
        = (if 1 < op.KPack then op.KPack else 1)
          * ((env.ivVal 0 * xcs.num_input_blks
                + (env.tid % 64) / xcs.num_threads_blk) * op.n
             + (env.tid % 64) % xcs.num_threads_blk
             + (env.waveOffsetB + op.ldsOffsetB / op.KPack)) := by
  have hKR : xcs.num_output_blks = 1 ∧ xcs.num_input_blks > 1 := ⟨hout, hin⟩
  refine ⟨fun xcs2 => by simp [v2LoweringCore], ?_, ?_, ?_, ?_, fun env => ?_⟩
  · simp [v2LoweringCore, hout, hin]
  · simp only [v2LoweringCore]
    rw [if_pos hKR]
  · simp only [v2LoweringCore]
    rw [if_pos hKR]
  · simp only [v2LoweringCore]
    rw [if_pos hKR]
  · by_cases hkp : 1 < op.KPack
    · constructor <;>
        · simp only [v2LoweringCore, if_pos hKR, if_pos hkp, IExpr.eval]
          ring
    · constructor <;>
        · simp only [v2LoweringCore, if_pos hKR, if_neg hkp, IExpr.eval]
          ring

/-- Concrete op, selection and environment for the C6 witness. -/
def c6WitnessOp : BlockwiseGemmV2Op := ⟨256, 512, 16, 64, 64, some 4, 8, 16, 2⟩

def c6WitnessXcs : Xcs := ⟨32, 2, 1, 4⟩

def c6WitnessEnv : Env := ⟨70, 5, 7, fun _ => 3⟩

/-- Witness for C6 at the concrete inputs above: KPerThread = 16 / 2 = 8
and the staged A source offset evaluates to
4 × ((3 × 2 + 6/32) × 256 + 6 % 32 + (5 + 2)). -/
theorem blockwiseGemmV2_kreduction_staging_witness :
    (v2LoweringCore c6WitnessOp c6WitnessXcs).kPerThread = 8 ∧
    ((v2LoweringCore c6WitnessOp c6WitnessXcs).srcOffsetA).eval c6WitnessEnv
      = 4 * ((3 * 2 + 0) * 256 + 6 + (5 + 2)) :=
  have h := blockwiseGemmV2_kreduction_staging c6WitnessOp c6WitnessXcs rfl
    (by decide)
  ⟨(h.2.2.1).trans (by decide),
    ((h.2.2.2.2.2 c6WitnessEnv).1).trans (by decide)⟩

/-- Every op kind a pattern emits lies in a legal dialect and is not one of
the four illegal kinds. -/
theorem applyPattern_emits_legal (o : PassOp) (r : PatResult)
    (h : applyPattern o = some (.applied r)) :
    ∀ k ∈ r.emittedKinds, dialectOf k ∈ legalDialects ∧ k ∉ illegalKinds := by
  cases o with
  | fillOp shape v i =>
    injection h with h
    injection h with h
    subst h
    decide
  | gemmOp op =>
    injection h with h
    injection h with h
    subst h
    decide
  | gemmV2Op op xcs =>
    simp only [applyPattern] at h
    cases hr : blockwiseGemmV2Rewrite op xcs with
    | error a => rw [hr] at h; injection h with h; cases h
    | ok res =>
      rw [hr] at h
      injection h with h
      injection h with h
      subst h
      show ∀ k ∈ gemmV2EmitKinds, dialectOf k ∈ legalDialects ∧
        k ∉ illegalKinds
      decide
  | copyV2Op op =>
    injection h with h
    injection h with h
    subst h
    decide
  | otherOp k => cases h

/-- Invariant of the conversion sweep: on success, no remaining op is one
of the four illegal kinds, and every emitted op kind lies in a legal
dialect and is not illegal. -/
theorem convertOps_invariant (ops : List PassOp) (rem em : List OpKind)
    (h : convertOps ops = .ok (rem, em)) :
    (∀ k ∈ rem, k ∉ illegalKinds) ∧
    (∀ k ∈ em, dialectOf k ∈ legalDialects ∧ k ∉ illegalKinds) := by
  induction ops generalizing rem em with
  | nil =>
    injection h with h
    injection h with h1 h2
    subst h1
    subst h2
    exact ⟨fun k hk => absurd hk (List.not_mem_nil k), fun k hk =>
      absurd hk (List.not_mem_nil k)⟩
  | cons o rest ih =>
    simp only [convertOps] at h
    cases hrest : convertOps rest with
    | error e => rw [hrest] at h; cases h
    | ok p =>
      obtain ⟨rem0, em0⟩ := p
      rw [hrest] at h
      dsimp only at h
      obtain ⟨ih1, ih2⟩ := ih rem0 em0 hrest
      by_cases hill : o.kind ∈ illegalKinds
      · rw [if_pos hill] at h
        cases hap : applyPattern o with
        | none => rw [hap] at h; cases h
        | some outcome =>
          rw [hap] at h
          cases outcome with
          | abort a => cases h
          | applied r =>
            dsimp only at h
            by_cases hroot : r.rootReplaced
            · rw [if_pos hroot] at h
              injection h with h
              injection h with h1 h2
              subst h1
              subst h2
              refine ⟨ih1, fun k hk => ?_⟩
              rcases List.mem_append.mp hk with hk1 | hk2
              · exact applyPattern_emits_legal o r hap k hk1
              · exact ih2 k hk2
            · rw [if_neg hroot] at h
              cases h
      · rw [if_neg hill] at h
        injection h with h
        injection h with h1 h2
        subst h1
        subst h2
        refine ⟨fun k hk => ?_, ih2⟩
        rcases List.mem_cons.mp hk with hk1 | hk2
        · subst hk1; exact hill
        · exact ih1 k hk2

/-- C7: a run of the pass declares exactly the four ops fill,
blockwise_gemm, blockwise_gemm_v2 and threadwise_copy_v2 illegal and the
fixed dialect set arith, miopen, affine, memref, vector legal; if the pass
converges, no op of the four illegal kinds remains and every op it emitted
belongs to a legal dialect; if the conversion fails, the pass signals pass
failure rather than crashing. -/
theorem pass_target_and_postconditions (ops : List PassOp) :
    illegalKinds = [.fill, .blockwiseGemm, .blockwiseGemmV2,
      .threadwiseCopyV2] ∧
    legalDialects = [.arith, .miopen, .affine, .memref, .vector] ∧
    (∀ rem em, runPass ops = .converged rem em →
      (∀ k ∈ rem, k ∉ illegalKinds) ∧
      (∀ k ∈ em, dialectOf k ∈ legalDialects ∧ k ∉ illegalKinds)) ∧
    (convertOps ops = .error none → runPass ops = .signalPassFailure) := by
  refine ⟨rfl, rfl, fun rem em h => ?_, fun h => ?_⟩
  · unfold runPass at h
    cases hc : convertOps ops with
    | error e =>
      rw [hc] at h
      cases e <;> cases h
    | ok p =>
      obtain ⟨rem0, em0⟩ := p
      rw [hc] at h
      injection h with h1 h2
      subst h1
      subst h2
      exact convertOps_invariant ops rem0 em0 hc
  · unfold runPass
    rw [h]

/-- Concrete op list for the C7 witness: one foreign (func-dialect) op and
one fill op over a 2 × 3 buffer. -/
def c7WitnessOps : List PassOp := [.otherOp (.foreign .func 0), .fillOp [2, 3] 5 6]

/-- Witness for C7: on the concrete op list the pass converges; the
remaining foreign op is not illegal and the emitted affine.for and
memref.store kinds are in legal dialects. -/
theorem pass_target_and_postconditions_witness :
    (∀ k ∈ ([.foreign .func 0] : List OpKind), k ∉ illegalKinds) ∧
    (∀ k ∈ ([.affineFor, .memrefStore] : List OpKind),
      dialectOf k ∈ legalDialects ∧ k ∉ illegalKinds) := by
  have h := (pass_target_and_postconditions c7WitnessOps).2.2.1
    ([.foreign .func 0] : List OpKind)
    ([.affineFor, .memrefStore] : List OpKind) rfl
  exact h

end BGTT
